import Mathlib

set_option maxHeartbeats 1000000

/-!
Verification development for the KUL public-schedule scraper
(`KULpubScheduleToICS.py` and `calevent.py`).

The Python program is shallowly embedded as follows.

* Parsed HTML (the BeautifulSoup element tree) is the inductive `Node`:
  a text node (`NavigableString`) or a tag with a name and children.
  `Node.string` models bs4 `.string` (the unique string of a chain of
  single children), `Node.find` models attribute access such as
  `tb_el.tr` (first matching descendant in document order), and
  `find_all('td', recursive=False)` is a filter over direct children.
* Python exceptions (AttributeError on `None`, IndexError, TypeError on
  subscripting `None`) are modelled by `Except String`; an `.error`
  value is a fatal crash of the run.
* `re.match` of the two fixed patterns is implemented directly:
  `matchTimeRange` implements `(\d+:\d+)\s*\w+\s*(\d+:\d+)` with
  Python's leftmost, greedy, backtracking semantics (each quantifier
  tries the longest length first, in depth-first order), anchored at
  the start and not at the end; `matchDDMM` implements `(\d+)\.(\d+)`.
  The character classes are modelled on their ASCII fragments, which
  cover every input the program meets.
* `arrow.get` on the composed `"YYYY-MM-DD HH:MM"` string is modelled
  by `arrow_get`: a fixed-width ISO-8601 date-time parse with range
  validation (month 1..12, day fitting the month and leap year, hour
  below 24, minute below 60); the implicit `arrow.get().year` global is
  threaded as an explicit `year : Nat` parameter.
-/

mutual
/-- Parsed-markup node: bs4 `NavigableString` or a tag with children. -/
inductive Node where
  | text : String → Node
  | elem : String → NodeList → Node
/-- A list of sibling nodes (children of a tag, in document order). -/
inductive NodeList where
  | nil : NodeList
  | cons : Node → NodeList → NodeList
end

/-- View a `NodeList` as a `List`. -/
def NodeList.toList : NodeList → List Node
  | .nil => []
  | .cons c rest => c :: NodeList.toList rest

/-- Build a `NodeList` from a `List`. -/
def NodeList.ofList : List Node → NodeList
  | [] => .nil
  | c :: rest => .cons c (NodeList.ofList rest)

/-- Tag node with children given as a `List`. -/
def Node.tag (t : String) (cs : List Node) : Node := .elem t (NodeList.ofList cs)

/-- Direct children of a node (`.contents` in bs4); a text node has none. -/
def Node.childrenOf : Node → List Node
  | .text _ => []
  | .elem _ cs => cs.toList

/-- Tag name of a node; `None` for a `NavigableString` (bs4 `.name`). -/
def Node.tagName : Node → Option String
  | .text _ => none
  | .elem t _ => some t

/-- bs4 `.string`: a `NavigableString` is its own string; a tag with a
single child takes that child's string; any other tag has none. -/
def Node.string : Node → Option String
  | .text s => some s
  | .elem _ (.cons c .nil) => Node.string c
  | .elem _ .nil => none
  | .elem _ (.cons _ (.cons _ _)) => none

mutual
/-- All descendants of a node in document (preorder) order. -/
def Node.descendants : Node → List Node
  | .text _ => []
  | .elem _ cs => descendantsOfList cs
/-- All members of a sibling list together with their descendants,
in document (preorder) order. -/
def descendantsOfList : NodeList → List Node
  | .nil => []
  | .cons c rest => c :: (Node.descendants c ++ descendantsOfList rest)
end

/-- bs4 `find(tag)` / attribute access `el.tr`, `el.a`, `el.font`:
first descendant with the given tag name, in document order. -/
def Node.find (tag : String) (n : Node) : Option Node :=
  (Node.descendants n).find? (fun c => Node.tagName c == some tag)

/-- bs4 `find_all(tag, recursive=False)`: direct children with the tag. -/
def Node.childrenByTag (tag : String) (n : Node) : List Node :=
  n.childrenOf.filter (fun c => Node.tagName c == some tag)

/-- Python list subscript `l[i]`; out of range raises `IndexError`. -/
def pyIndex {α : Type} (l : List α) (i : Nat) : Except String α :=
  match l[i]? with
  | some a => Except.ok a
  | none => Except.error "IndexError: list index out of range"

/-- Use of an optional value where Python would raise on `None`. -/
def pyGet {α : Type} (o : Option α) (msg : String) : Except String α :=
  match o with
  | some a => Except.ok a
  | none => Except.error msg

/-- Python truthiness of the value returned by `is_week_row`
(`True`, `False`, or the implicit `None`). -/
def truthy : Option Bool → Bool
  | none => false
  | some b => b

/-- `\d` on its ASCII fragment. -/
def isPyDigit (c : Char) : Bool := c.isDigit

/-- `\w` on its ASCII fragment: letters, digits, underscore. -/
def isPyWord (c : Char) : Bool := c.isAlphanum || c == '_'

/-- `\s` on its ASCII fragment. -/
def isPySpace (c : Char) : Bool :=
  c == ' ' || c == '\t' || c == '\n' || c == '\r' || c == '\x0b' || c == '\x0c'

/-- First success of `f` along a list of candidate lengths. -/
def firstSome {α : Type} (f : Nat → Option α) : List Nat → Option α
  | [] => none
  | n :: ns =>
    match f n with
    | some r => some r
    | none => firstSome f ns

/-- Candidate lengths for a greedy `p*`/`p+` piece at the front of `cs`:
from the maximal run length down to `lo` (empty when the run is shorter
than `lo`), in the order a backtracking regex engine tries them. -/
def greedyLens (p : Char → Bool) (cs : List Char) (lo : Nat) : List Nat :=
  (List.range' lo ((cs.takeWhile p).length + 1 - lo)).reverse

/-- Consume one literal character at the front of a character list. -/
def expectChar (c : Char) : List Char → Option (List Char)
  | d :: r => if d == c then some r else none
  | [] => none

/-- `re.match(r"(\d+:\d+)\s*\w+\s*(\d+:\d+)", s)` (the module constant
`REGEXPR_TIME_RANGE`): on success the two captured groups, else `none`.
Implements the pattern with Python's backtracking semantics: anchored at
the start of `s`, each quantifier greedy, depth-first backtracking, no
anchoring at the end. -/
def matchTimeRange (s : String) : Option (String × String) :=
  let cs := s.toList
  firstSome (fun l1 =>
    let g1a := cs.take l1
    (expectChar ':' (cs.drop l1)).bind (fun r1 =>
      firstSome (fun l2 =>
        let g1b := r1.take l2
        let r2 := r1.drop l2
        firstSome (fun l3 =>
          let r3 := r2.drop l3
          firstSome (fun l4 =>
            let r4 := r3.drop l4
            firstSome (fun l5 =>
              let r5 := r4.drop l5
              firstSome (fun l6 =>
                let g2a := r5.take l6
                (expectChar ':' (r5.drop l6)).bind (fun r6 =>
                  firstSome (fun l7 =>
                    let g2b := r6.take l7
                    some (String.mk (g1a ++ ':' :: g1b),
                          String.mk (g2a ++ ':' :: g2b)))
                    (greedyLens isPyDigit r6 1)))
                (greedyLens isPyDigit r5 1))
              (greedyLens isPySpace r4 0))
            (greedyLens isPyWord r3 1))
          (greedyLens isPySpace r2 0))
        (greedyLens isPyDigit r1 1)))
    (greedyLens isPyDigit cs 1)

/-- `re.match(r"(\d+)\.(\d+)", date)` (the local `REGEXPR_Date` of
`construct_timestamp`): the two captured groups, else `none`.  For this
pattern greedy matching needs no backtracking: a shorter first group
leaves a digit where the literal dot is required. -/
def matchDDMM (s : String) : Option (String × String) :=
  let cs := s.toList
  let g1 := cs.takeWhile isPyDigit
  if g1.isEmpty then none
  else
    (expectChar '.' (cs.drop g1.length)).bind (fun r2 =>
      let g2 := r2.takeWhile isPyDigit
      if g2.isEmpty then none
      else some (String.mk g1, String.mk g2))

/-- Python `str.zfill(2)`: pad on the left with `'0'` to length 2
(the matched groups being digit runs, no sign handling is reached). -/
def zfill2 (s : String) : String :=
  if s.length < 2 then String.mk (List.replicate (2 - s.length) '0') ++ s else s

/-- An absolute local timestamp (model of an `arrow.Arrow` instant). -/
structure Timestamp where
  year : Nat
  month : Nat
  day : Nat
  hour : Nat
  minute : Nat
deriving DecidableEq

/-- Instant key of a timestamp: strictly monotone in the field tuple for
the ranges `arrow_get` validates, so `key a < key b` is the `<` order on
`arrow.Arrow` instants of one timezone. -/
def Timestamp.key (t : Timestamp) : Nat :=
  (((t.year * 32 + t.month) * 64 + t.day) * 32 + t.hour) * 64 + t.minute

/-- Numeric value of two digit characters. -/
def val2 (a b : Char) : Nat := (a.toNat - 48) * 10 + (b.toNat - 48)

/-- Numeric value of four digit characters. -/
def val4 (a b c d : Char) : Nat :=
  ((a.toNat - 48) * 1000 + (b.toNat - 48) * 100 + (c.toNat - 48) * 10 + (d.toNat - 48))

/-- Parse `YYYY-MM-DD` at the front of a character list, returning the
three numbers and the rest. -/
def parseYMD : List Char → Option (Nat × Nat × Nat × List Char)
  | a :: b :: c :: d :: s1 :: e :: f :: s2 :: g :: h :: rest =>
    if s1 == '-' && s2 == '-' &&
       isPyDigit a && isPyDigit b && isPyDigit c && isPyDigit d &&
       isPyDigit e && isPyDigit f && isPyDigit g && isPyDigit h then
      some (val4 a b c d, val2 e f, val2 g h, rest)
    else none
  | _ => none

/-- Parse `HH:MM` as the entire remaining character list. -/
def parseHMEnd : List Char → Option (Nat × Nat)
  | [a, b, ':', c, d] =>
    if isPyDigit a && isPyDigit b && isPyDigit c && isPyDigit d then
      some (val2 a b, val2 c d)
    else none
  | _ => none

/-- Gregorian leap year. -/
def isLeap (y : Nat) : Bool := y % 4 == 0 && (y % 100 != 0 || y % 400 == 0)

/-- Days in a month of a year. -/
def daysInMonth (y m : Nat) : Nat :=
  if m == 2 then (if isLeap y then 29 else 28)
  else if m == 4 || m == 6 || m == 9 || m == 11 then 30
  else 31

/-- `arrow.get` on the `"YYYY-MM-DD HH:MM"` string the program composes:
fixed-width ISO-8601 parse of the whole string with calendar
validation; anything else raises `ParserError`. -/
def arrow_get (s : String) : Except String Timestamp :=
  match parseYMD s.toList with
  | some (y, mo, d, rest) =>
    match expectChar ' ' rest with
    | some rest2 =>
      match parseHMEnd rest2 with
      | some (h, mi) =>
        if 1 ≤ mo && mo ≤ 12 && 1 ≤ d && d ≤ daysInMonth y mo && h ≤ 23 && mi ≤ 59 then
          Except.ok ⟨y, mo, d, h, mi⟩
        else Except.error "ParserError: value out of range"
      | none => Except.error "ParserError: could not match input"
    | none => Except.error "ParserError: could not match input"
  | none => Except.error "ParserError: could not match input"

/-- Python `str.lower` of one character, on the ASCII range the tag
names live in. -/
def lowerChar (c : Char) : Char :=
  if 'A' ≤ c && c ≤ 'Z' then Char.ofNat (c.toNat + 32) else c

/-- Python `str.lower` (`tb_el.name.lower()`), on the ASCII range. -/
def pyLower (s : String) : String := String.mk (s.toList.map lowerChar)

/-- `sanitize_string`: Python `str.strip()`, removing the whitespace
characters from both ends (the parsed HTML is full of `\r\n`). -/
def sanitize_string (str_in : String) : String :=
  String.mk (((str_in.toList.dropWhile isPySpace).reverse.dropWhile isPySpace).reverse)

/-- `construct_timestamp(date, time)`: match `DD.MM`, zero-fill day and
month, compose `f"{year}-{MM}-{DD}" + " " + time` and hand it to the
timestamp library.  The implicit `arrow.get().year` is the explicit
`year` argument; a date not matching the pattern raises (`m[2]` on
`None`). -/
def construct_timestamp (year : Nat) (date : String) (time : String) :
    Except String Timestamp :=
  match matchDDMM date with
  | none => Except.error "TypeError: 'NoneType' object is not subscriptable"
  | some (d, mo) =>
    let date_str := toString year ++ "-" ++ zfill2 mo ++ "-" ++ zfill2 d
    arrow_get (date_str ++ " " ++ time)

instance exceptDecEq {ε α : Type} [DecidableEq ε] [DecidableEq α] :
    DecidableEq (Except ε α) := fun x y =>
  match x, y with
  | .ok a, .ok b =>
    if h : a = b then .isTrue (by rw [h]) else .isFalse (by simp [h])
  | .error a, .error b =>
    if h : a = b then .isTrue (by rw [h]) else .isFalse (by simp [h])
  | .ok _, .error _ => .isFalse (by simp)
  | .error _, .ok _ => .isFalse (by simp)


/-- Event record (`calevent.CalEvent`): description, location, start and
stop timestamps. -/
structure CalEvent where
  description : String
  location : String
  dt_start : Timestamp
  dt_stop : Timestamp
deriving DecidableEq

/-- The cell selection of `is_week_row`: `td_el = tb_el.tr.contents[0]`,
replaced by `contents[1]` when its string equals `'\n'`; an out-of-range
subscript raises `IndexError`. -/
def pickCell (contents : List Node) : Except String Node :=
  match pyIndex contents 0 with
  | .error e => .error e
  | .ok td0 => if td0.string == some "\n" then pyIndex contents 1 else .ok td0

/-- The final condition chain of `is_week_row` on the selected cell:
`if not isinstance(td_el, str) and td_el.font is not None:` then
`if sanitize_string(td_el.font.string) == 'Week': return True`; every
fall-through is the implicit `None`, and `sanitize_string(None)` is an
`AttributeError`. -/
def weekCellCheck (td_el : Node) : Except String (Option Bool) :=
  match td_el with
  | .text _ => Except.ok none
  | .elem _ _ =>
    match Node.find "font" td_el with
    | none => Except.ok none
    | some font_el =>
      match font_el.string with
      | none => Except.error "AttributeError: 'NoneType' object has no attribute 'strip'"
      | some s =>
        if sanitize_string s = "Week" then Except.ok (some true)
        else Except.ok none

/-- `is_week_row(tb_el)`: check whether a tag from the semester view page
is a week row.  The chain of conditions can fall through, in which case
Python returns the implicit `None` (modelled `Except.ok none`); crashes
of the chain itself (missing row cell, `font` having no string) are
`Except.error`. -/
def is_week_row (tb_el : Node) : Except String (Option Bool) :=
  match Node.tagName tb_el with
  | none => Except.error "AttributeError: 'NoneType' object has no attribute 'lower'"
  | some nm =>
    if pyLower nm ≠ "table" then Except.ok (some false)
    else
      match Node.find "tr" tb_el with
      | none => Except.ok (some false)
      | some tr_el =>
        match pickCell tr_el.childrenOf with
        | .error e => .error e
        | .ok td_el => weekCellCheck td_el

/-- The `for i in range(pos, len(table_lst))` loop of `find_week_row`. -/
def find_week_row_aux : List Node → Nat → Except String (Option Nat)
  | [], _ => Except.ok none
  | el :: rest, i =>
    match is_week_row el with
    | .error e => .error e
    | .ok w => if truthy w then Except.ok (some i) else find_week_row_aux rest (i + 1)

/-- `find_week_row(table_lst)` with the default `pos = 0`: index of the
first row classified truthy by `is_week_row`, or the implicit `None`. -/
def find_week_row (table_lst : List Node) : Except String (Option Nat) :=
  find_week_row_aux table_lst 0

/-- `table_lst[pos].tr.find_all('td', recursive=False)`. -/
def rowTds (table_lst : List Node) (pos : Nat) : Except String (List Node) :=
  match pyIndex table_lst pos with
  | .error e => .error e
  | .ok t =>
    match Node.find "tr" t with
    | none => Except.error "AttributeError: 'NoneType' object has no attribute 'find_all'"
    | some tr_el => Except.ok (Node.childrenByTag "td" tr_el)

/-- `sanitize_string(cells[i].string)`: crashes when the cell has no
string (`None.strip()`). -/
def cellString (cells : List Node) (i : Nat) : Except String String :=
  match pyIndex cells i with
  | .error e => .error e
  | .ok c =>
    match c.string with
    | none => Except.error "AttributeError: 'NoneType' object has no attribute 'strip'"
    | some s => Except.ok (sanitize_string s)

/-- `sanitize_string(cells[i].a.string)`: the course code nested in the
link sub-element. -/
def cellAString (cells : List Node) (i : Nat) : Except String String :=
  match pyIndex cells i with
  | .error e => .error e
  | .ok c =>
    match Node.find "a" c with
    | none => Except.error "AttributeError: 'NoneType' object has no attribute 'string'"
    | some a_el =>
      match a_el.string with
      | none => Except.error "AttributeError: 'NoneType' object has no attribute 'strip'"
      | some s => Except.ok (sanitize_string s)

/-- `process_event_rows(table_lst, pos)`: the detail row at `pos`, the
dates row at `pos + 1`, the four sanitized fields by fixed column, the
non-`None` date strings, the time-range match (`m[1]` on a failed match
raises), and one `CalEvent` per date.  `year` threads the implicit
`arrow.get().year` read inside `construct_timestamp`. -/
def process_event_rows (year : Nat) (table_lst : List Node) (pos : Nat) :
    Except String (List CalEvent) :=
  match rowTds table_lst pos with
  | .error e => .error e
  | .ok event_detail_row =>
    match rowTds table_lst (pos + 1) with
    | .error e => .error e
    | .ok event_dates_row =>
      match cellString event_detail_row 1 with
      | .error e => .error e
      | .ok time_range_str =>
        match cellString event_detail_row 2 with
        | .error e => .error e
        | .ok room_str =>
          match cellAString event_detail_row 3 with
          | .error e => .error e
          | .ok course_code_str =>
            match cellString event_detail_row 4 with
            | .error e => .error e
            | .ok course_descr_str =>
              let date_strings_it := event_dates_row.filterMap Node.string
              match matchTimeRange time_range_str with
              | none => Except.error "TypeError: 'NoneType' object is not subscriptable"
              | some m =>
                let time_start_str := m.1
                let time_stop_str := m.2
                date_strings_it.mapM (fun date =>
                  match construct_timestamp year date time_start_str with
                  | .error e => Except.error e
                  | .ok t1 =>
                    match construct_timestamp year date time_stop_str with
                    | .error e => Except.error e
                    | .ok t2 =>
                      Except.ok { description := course_descr_str ++ " (" ++ course_code_str ++ ")",
                                  location := room_str, dt_start := t1, dt_stop := t2 })

/-- One unfolding of the `while cur_ind < stop_ind` loop of `main`,
with the loop's continuation abstracted: when the table at the cursor is
(truthily) a week row, first advance the cursor by 2 past the week and
day markers; process the event pair at the cursor; advance by 2. -/
def scanStep (year : Nat) (table_lst : List Node) (cur stop : Nat)
    (rec : Nat → Except String (List CalEvent)) : Except String (List CalEvent) :=
  if cur < stop then
    match pyIndex table_lst cur with
    | .error e => .error e
    | .ok el =>
      match is_week_row el with
      | .error e => .error e
      | .ok w =>
        match process_event_rows year table_lst (if truthy w then cur + 2 else cur) with
        | .error e => .error e
        | .ok evs =>
          match rec ((if truthy w then cur + 2 else cur) + 2) with
          | .error e => .error e
          | .ok rest => Except.ok (evs ++ rest)
  else Except.ok []

/-- The loop of `main` with an explicit iteration bound.  The cursor
advances by at least 2 per iteration, so any `fuel ≥ stop - cur` makes
this the exact `while` loop (`scanLoopF_congr` below); exhausted fuel
coincides with the terminated loop. -/
def scanLoopF (year : Nat) (table_lst : List Node) (stop : Nat) :
    Nat → Nat → Except String (List CalEvent)
  | 0, _ => Except.ok []
  | fuel + 1, cur =>
    scanStep year table_lst cur stop (scanLoopF year table_lst stop fuel)

/-- The `while cur_ind < stop_ind` loop of `main`, entered at `cur`. -/
def scanLoop (year : Nat) (table_lst : List Node) (cur stop : Nat) :
    Except String (List CalEvent) :=
  scanLoopF year table_lst stop (stop - cur) cur

/-- The scan of `main` after the page parse: start two past the first
week row (`find_week_row(tables_lst) + 2`, a crash when that is `None`),
stop one before the final table. -/
def main_scan (year : Nat) (tables_lst : List Node) : Except String (List CalEvent) :=
  match find_week_row tables_lst with
  | .error e => .error e
  | .ok none => Except.error "TypeError: unsupported operand type(s) for +: 'NoneType' and 'int'"
  | .ok (some i) => scanLoop year tables_lst (i + 2) (tables_lst.length - 1)

/-! ### Concrete fixtures

Table elements shaped like the schedule page rows, used in concrete
runs, counterexamples and witnesses. -/

/-- A `<td>` cell holding plain text. -/
def tdCell (s : String) : Node := Node.tag "td" [.text s]

/-- A `<td>` cell holding the course code inside an `<a>` link. -/
def tdLinkCell (s : String) : Node := Node.tag "td" [Node.tag "a" [.text s]]

/-- A one-row `<table>` with the given cells. -/
def oneRowTable (cells : List Node) : Node := Node.tag "table" [Node.tag "tr" cells]

/-- A week-marker table: first cell holds `<font>Week</font>`. -/
def weekMarkerTable : Node := oneRowTable [Node.tag "td" [Node.tag "font" [.text "Week"]]]

/-- A day-marker table (not a week row: no `font` element). -/
def dayMarkerTable : Node := oneRowTable [tdCell "Monday"]

/-- An event-detail table with the spec's cells and the given time range. -/
def detailTable (time : String) : Node :=
  oneRowTable [tdCell "", tdCell time, tdCell "200B", tdLinkCell "H00A0a",
    tdCell "Intro to Systems"]

/-- The dates table with cells `18.03` and `25.03`. -/
def datesTable : Node := oneRowTable [tdCell "18.03", tdCell "25.03"]

/-- The table sequence of the spec's end-to-end scenario, verbatim:
time-range cell `"09:00 - 10:00"`. -/
def c1Tables : List Node :=
  [weekMarkerTable, dayMarkerTable, detailTable "09:00 - 10:00", datesTable]

/-- The end-to-end scenario with a separator the time-range pattern can
match (`\w+`): time-range cell `"09:00 to 10:00"`. -/
def c1TablesFixed : List Node :=
  [weekMarkerTable, dayMarkerTable, detailTable "09:00 to 10:00", datesTable]

/-! ### Claim-side predicates and further fixtures -/

/-- The week-marker classification exactly as the specification words
it: a table-like node whose first row's first non-whitespace cell
(first cell whose text content is not whitespace-only), after trimming
surrounding whitespace, contains exactly the case-sensitive text
`"Week"`.  Stated from the spec's words, to be compared with the
code's `is_week_row`. -/
def spec_is_week_row (el : Node) : Bool :=
  match Node.tagName el with
  | none => false
  | some nm =>
    pyLower nm == "table" &&
    match Node.find "tr" el with
    | none => false
    | some tr_el =>
      match tr_el.childrenOf.find? (fun c =>
        match c.string with
        | some s => sanitize_string s ≠ ""
        | none => false) with
      | none => false
      | some cell =>
        match cell.string with
        | some s => sanitize_string s == "Week"
        | none => false

/-- The cell `is_week_row` actually inspects: the first child of the
row, or the second when the first's text is exactly a newline. -/
def inspectedCell (cs : List Node) : Option Node :=
  match cs[0]? with
  | none => none
  | some c0 => if c0.string == some "\n" then cs[1]? else some c0

/-- The cell-level part of the classification: the cell has a `font`
descendant whose string trims to exactly `"Week"`. -/
def weekFontCond (td_el : Node) : Bool :=
  match Node.find "font" td_el with
  | none => false
  | some font_el =>
    match font_el.string with
    | none => false
    | some s => sanitize_string s == "Week"

/-- The condition under which `is_week_row` classifies truthily, stated
declaratively: a table-like node (tag name lowercasing to `table`) with
a `tr` descendant whose inspected cell is a tag having a `font`
descendant whose string trims to exactly `"Week"`. -/
def week_marker_cond (el : Node) : Bool :=
  match Node.tagName el with
  | none => false
  | some nm =>
    pyLower nm == "table" &&
    match Node.find "tr" el with
    | none => false
    | some tr_el =>
      match inspectedCell tr_el.childrenOf with
      | none => false
      | some td_el => (Node.tagName td_el).isSome && weekFontCond td_el

/-- A table whose first cell's text is `Week` but not inside a `font`
element. -/
def plainWeekTable : Node := oneRowTable [Node.tag "td" [.text "Week"]]

/-- A detail/dates group on its own (no week or day markers). -/
def groupTables : List Node := [detailTable "09:00 to 10:00", datesTable]

/-- A detail row paired with a dates row whose only cell is empty
(no text content at all). -/
def emptyDatesTables : List Node :=
  [detailTable "09:00 to 10:00", oneRowTable [Node.tag "td" []]]

/-- A detail row whose time-range text matches nothing. -/
def badTimeTables : List Node := [detailTable "invalid", datesTable]

/-- A detail/dates group whose second date cell is not `DD.MM`. -/
def badDateTables : List Node :=
  [detailTable "09:00 to 10:00", oneRowTable [tdCell "18.03", tdCell "soon"]]

/-- A detail/dates group whose time range runs backwards. -/
def reversedTimeTables : List Node :=
  [detailTable "10:00 to 09:00", oneRowTable [tdCell "18.03"]]

/-- The first record the two-date fixture group produces. -/
def sampleEvent : CalEvent :=
  ⟨"Intro to Systems (H00A0a)", "200B", ⟨2024, 3, 18, 9, 0⟩, ⟨2024, 3, 18, 10, 0⟩⟩

/-- The second record the two-date fixture group produces. -/
def sampleEvent2 : CalEvent :=
  ⟨"Intro to Systems (H00A0a)", "200B", ⟨2024, 3, 25, 9, 0⟩, ⟨2024, 3, 25, 10, 0⟩⟩

/-! ### General lemmas -/

theorem firstSome_cons_some {α : Type} {f : Nat → Option α} {n : Nat} {ns : List Nat}
    {r : α} (h : f n = some r) : firstSome f (n :: ns) = some r := by
  simp [firstSome, h]

theorem takeWhile_all {p : Char → Bool} {l : List Char}
    (h : ∀ c ∈ l, p c = true) : l.takeWhile p = l := by
  induction l with
  | nil => rfl
  | cons x xs ih =>
    simp only [List.takeWhile_cons, h x (by simp)]
    simp [ih (fun c hc => h c (by simp [hc]))]

theorem takeWhile_append_stop {p : Char → Bool} {l : List Char} {y : Char}
    {rest : List Char} (h : ∀ c ∈ l, p c = true) (hy : p y = false) :
    (l ++ y :: rest).takeWhile p = l := by
  induction l with
  | nil => simp [List.takeWhile_cons, hy]
  | cons x xs ih =>
    simp only [List.cons_append, List.takeWhile_cons, h x (by simp)]
    simp [ih (fun c hc => h c (by simp [hc]))]

theorem greedyLens_eq_cons {p : Char → Bool} {cs : List Char} {lo : Nat}
    (h : lo ≤ (cs.takeWhile p).length) :
    ∃ ns, greedyLens p cs lo = (cs.takeWhile p).length :: ns := by
  unfold greedyLens
  obtain ⟨k, hk⟩ : ∃ k, (cs.takeWhile p).length + 1 - lo = k + 1 :=
    ⟨(cs.takeWhile p).length - lo, by omega⟩
  rw [hk, List.range'_concat, List.reverse_append]
  refine ⟨(List.range' lo k).reverse, ?_⟩
  simp only [List.reverse_cons, List.reverse_nil, List.nil_append, List.cons_append]
  congr 1
  omega

theorem toList_append (a b : String) : (a ++ b).toList = a.toList ++ b.toList :=
  String.data_append a b

theorem scanStep_congr (year : Nat) (tl : List Node) (cur stop : Nat)
    (rec1 rec2 : Nat → Except String (List CalEvent))
    (h : ∀ n, cur < n → rec1 n = rec2 n) :
    scanStep year tl cur stop rec1 = scanStep year tl cur stop rec2 := by
  unfold scanStep
  by_cases hc : cur < stop
  · rw [if_pos hc, if_pos hc]
    cases pyIndex tl cur with
    | error e => rfl
    | ok el =>
      dsimp only
      cases is_week_row el with
      | error e => rfl
      | ok w =>
        dsimp only
        cases process_event_rows year tl (if truthy w then cur + 2 else cur) with
        | error e => rfl
        | ok evs =>
          dsimp only
          rw [h _ (by split <;> omega)]
  · rw [if_neg hc, if_neg hc]

theorem scanLoopF_congr (year : Nat) (tl : List Node) (stop : Nat) :
    ∀ (fuel fuel' cur : Nat), stop - cur ≤ fuel → stop - cur ≤ fuel' →
    scanLoopF year tl stop fuel cur = scanLoopF year tl stop fuel' cur := by
  intro fuel
  induction fuel with
  | zero =>
    intro fuel' cur h h'
    have hc : ¬ cur < stop := by omega
    cases fuel' with
    | zero => rfl
    | succ f' => simp [scanLoopF, scanStep, hc]
  | succ f ih =>
    intro fuel' cur h h'
    cases fuel' with
    | zero =>
      have hc : ¬ cur < stop := by omega
      simp [scanLoopF, scanStep, hc]
    | succ f' =>
      simp only [scanLoopF]
      apply scanStep_congr
      intro n hn
      exact ih f' n (by omega) (by omega)

theorem scanLoop_unfold (year : Nat) (tl : List Node) (cur stop : Nat) :
    scanLoop year tl cur stop =
      scanStep year tl cur stop (fun n => scanLoop year tl n stop) := by
  unfold scanLoop
  by_cases hc : cur < stop
  · obtain ⟨k, hk⟩ : ∃ k, stop - cur = k + 1 := ⟨stop - cur - 1, by omega⟩
    rw [hk]
    simp only [scanLoopF]
    apply scanStep_congr
    intro n hn
    exact scanLoopF_congr year tl stop k (stop - n) n (by omega) (by omega)
  · have h0 : stop - cur = 0 := by omega
    rw [h0]
    simp [scanLoopF, scanStep, hc]

/-! ### Claims -/

/-- C1 (counterexample): the spec's end-to-end scenario, with time-range
cell `"09:00 - 10:00"`, does not produce the two claimed records: the
separator `-` is not a `\w+` token, the time-range match fails, and the
scan crashes subscripting the failed match. -/
theorem c1_counterexample :
    main_scan 2024 c1Tables =
      Except.error "TypeError: 'NoneType' object is not subscriptable" ∧
    main_scan 2024 c1Tables ≠ Except.ok
      [⟨"Intro to Systems (H00A0a)", "200B", ⟨2024, 3, 18, 9, 0⟩, ⟨2024, 3, 18, 10, 0⟩⟩,
       ⟨"Intro to Systems (H00A0a)", "200B", ⟨2024, 3, 25, 9, 0⟩, ⟨2024, 3, 25, 10, 0⟩⟩] := by
  exact ⟨by decide, by decide⟩

/-- C1 (amended): with a word-token separator in the time-range cell
(`"09:00 to 10:00"`), the scan of the week/day/detail/dates sequence at
current year 2024 produces exactly the two claimed records. -/
theorem c1_amended :
    main_scan 2024 c1TablesFixed = Except.ok
      [⟨"Intro to Systems (H00A0a)", "200B", ⟨2024, 3, 18, 9, 0⟩, ⟨2024, 3, 18, 10, 0⟩⟩,
       ⟨"Intro to Systems (H00A0a)", "200B", ⟨2024, 3, 25, 9, 0⟩, ⟨2024, 3, 25, 10, 0⟩⟩] := by
  decide

/-- C4: the scan's cursor behaviour.  The scan starts two past the found
week-row index with stop index one before the final element; a cursor at
or past the stop index ends the loop; at a (truthy) week marker the
cursor advances by 2 before the event pair is processed and by 2 after
it (net 4); otherwise the pair at the cursor is processed and the cursor
advances by 2. -/
theorem c4_cursor_loop (year : Nat) (tl : List Node) (i cur stop : Nat)
    (el : Node) (w : Option Bool) :
    (find_week_row tl = Except.ok (some i) →
      main_scan year tl = scanLoop year tl (i + 2) (tl.length - 1)) ∧
    (¬ cur < stop → scanLoop year tl cur stop = Except.ok []) ∧
    (cur < stop → pyIndex tl cur = Except.ok el → is_week_row el = Except.ok w →
      truthy w = true →
      scanLoop year tl cur stop =
        (process_event_rows year tl (cur + 2)).bind (fun evs =>
          (scanLoop year tl (cur + 4) stop).map (fun rest => evs ++ rest))) ∧
    (cur < stop → pyIndex tl cur = Except.ok el → is_week_row el = Except.ok w →
      truthy w = false →
      scanLoop year tl cur stop =
        (process_event_rows year tl cur).bind (fun evs =>
          (scanLoop year tl (cur + 2) stop).map (fun rest => evs ++ rest))) := by
  refine ⟨?_, ?_, ?_, ?_⟩
  · intro h
    unfold main_scan
    rw [h]
  · intro h
    rw [scanLoop_unfold]
    unfold scanStep
    rw [if_neg h]
  · intro hc hEl hW ht
    rw [scanLoop_unfold]
    simp only [scanStep, if_pos hc, hEl, hW, ht, if_true]
    have h4 : cur + 2 + 2 = cur + 4 := by omega
    rw [h4]
    cases process_event_rows year tl (cur + 2) with
    | error e => rfl
    | ok evs =>
      dsimp only
      cases scanLoop year tl (cur + 4) stop with
      | error e => rfl
      | ok rest => rfl
  · intro hc hEl hW ht
    rw [scanLoop_unfold]
    simp only [scanStep, if_pos hc, hEl, hW, ht, Bool.false_eq_true, if_false]
    cases process_event_rows year tl cur with
    | error e => rfl
    | ok evs =>
      dsimp only
      cases scanLoop year tl (cur + 2) stop with
      | error e => rfl
      | ok rest => rfl

/-- C4 witness: each loop law instantiated on the concrete fixed
end-to-end table list. -/
theorem c4_witness :
    (main_scan 2024 c1TablesFixed =
      scanLoop 2024 c1TablesFixed (0 + 2) (c1TablesFixed.length - 1)) ∧
    (scanLoop 2024 c1TablesFixed 4 3 = Except.ok []) ∧
    (scanLoop 2024 c1TablesFixed 0 3 =
      (process_event_rows 2024 c1TablesFixed (0 + 2)).bind (fun evs =>
        (scanLoop 2024 c1TablesFixed (0 + 4) 3).map (fun rest => evs ++ rest))) ∧
    (scanLoop 2024 c1TablesFixed 2 3 =
      (process_event_rows 2024 c1TablesFixed 2).bind (fun evs =>
        (scanLoop 2024 c1TablesFixed (2 + 2) 3).map (fun rest => evs ++ rest))) :=
  ⟨(c4_cursor_loop 2024 c1TablesFixed 0 0 0 (Node.text "") none).1 (by decide),
   (c4_cursor_loop 2024 c1TablesFixed 0 4 3 (Node.text "") none).2.1 (by omega),
   (c4_cursor_loop 2024 c1TablesFixed 0 0 3 weekMarkerTable (some true)).2.2.1
     (by omega) rfl (by decide) rfl,
   (c4_cursor_loop 2024 c1TablesFixed 0 2 3 (detailTable "09:00 to 10:00") none).2.2.2
     (by omega) rfl (by decide) rfl⟩

/-- C8: timestamp reconstruction on `"15.03"` and `"09:30"` with the
current year 2024 yields 2024-03-15T09:30; in general, with the same
date and year, it combines any parsable in-range `HH:MM` time string
into a timestamp with that date and that time of day. -/
theorem c8_timestamp_roundtrip :
    construct_timestamp 2024 "15.03" "09:30" = Except.ok ⟨2024, 3, 15, 9, 30⟩ ∧
    ∀ (t : String) (h mi : Nat), parseHMEnd t.toList = some (h, mi) →
      h ≤ 23 → mi ≤ 59 →
      construct_timestamp 2024 "15.03" t = Except.ok ⟨2024, 3, 15, h, mi⟩ := by
  constructor
  · decide
  · intro t h mi hhm hh hmi
    unfold construct_timestamp
    rw [show matchDDMM "15.03" = some ("15", "03") from by decide]
    dsimp only
    unfold arrow_get
    rw [toList_append]
    rw [show (toString 2024 ++ "-" ++ zfill2 "03" ++ "-" ++ zfill2 "15" ++ " ").toList =
      ['2', '0', '2', '4', '-', '0', '3', '-', '1', '5', ' '] from rfl]
    simp only [List.cons_append, List.nil_append]
    rw [show parseYMD ('2' :: '0' :: '2' :: '4' :: '-' :: '0' :: '3' :: '-' :: '1' :: '5' ::
      ' ' :: t.toList) = some (2024, 3, 15, ' ' :: t.toList) from by
        simp [parseYMD, isPyDigit, val4, val2]]
    dsimp only
    rw [show expectChar ' ' (' ' :: t.toList) = some t.toList from by simp [expectChar]]
    dsimp only
    rw [hhm]
    dsimp only
    rw [if_pos]
    simp only [daysInMonth, isLeap]
    simp only [Bool.and_eq_true, decide_eq_true_eq]
    refine ⟨⟨⟨⟨⟨by omega, by omega⟩, by omega⟩, by norm_num⟩, by omega⟩, by omega⟩

/-- C8 witness: the general combination law applied at `"09:30"`. -/
theorem c8_witness :
    parseHMEnd ("09:30").toList = some (9, 30) ∧
    construct_timestamp 2024 "15.03" "09:30" = Except.ok ⟨2024, 3, 15, 9, 30⟩ :=
  ⟨by decide, c8_timestamp_roundtrip.2 "09:30" 9 30 (by decide) (by omega) (by omega)⟩

theorem mapM_ok_of_forall {α β : Type} {F : α → Except String β} {g : α → β} :
    ∀ {l : List α}, (∀ a ∈ l, F a = Except.ok (g a)) → l.mapM F = Except.ok (l.map g) := by
  intro l
  induction l with
  | nil => intro _; rfl
  | cons x xs ih =>
    intro h
    rw [List.mapM_cons, h x (by simp), ih (fun a ha => h a (by simp [ha]))]
    rfl

theorem mapM_error_append {α β : Type} {F : α → Except String β} {bad : α}
    {e : String} :
    ∀ {good : List α} (after : List α),
      (∀ a ∈ good, ∃ b, F a = Except.ok b) → F bad = Except.error e →
      (good ++ bad :: after).mapM F = Except.error e := by
  intro good
  induction good with
  | nil =>
    intro after _ hbad
    rw [List.nil_append, List.mapM_cons, hbad]
    rfl
  | cons x xs ih =>
    intro after h hbad
    obtain ⟨b, hb⟩ := h x (by simp)
    rw [List.cons_append, List.mapM_cons, hb]
    show (xs ++ bad :: after).mapM F >>= (fun l => pure (b :: l)) = Except.error e
    rw [ih after (fun a ha => h a (by simp [ha])) hbad]
    rfl

/-- C7: when no table is (truthily) classified as a week row, the week
search yields the implicit `None`, and `main`'s `find_week_row(...) + 2`
is a fatal `TypeError`; the whole scan is the error, never a guessed
start. -/
theorem c7_no_week_row_crash (year : Nat) (tl : List Node)
    (h : ∀ el ∈ tl, ∃ w, is_week_row el = Except.ok w ∧ truthy w = false) :
    find_week_row tl = Except.ok none ∧
    main_scan year tl =
      Except.error "TypeError: unsupported operand type(s) for +: 'NoneType' and 'int'" := by
  have aux : ∀ (l : List Node) (i : Nat),
      (∀ el ∈ l, ∃ w, is_week_row el = Except.ok w ∧ truthy w = false) →
      find_week_row_aux l i = Except.ok none := by
    intro l
    induction l with
    | nil => intro i _; rfl
    | cons x xs ih =>
      intro i hx
      obtain ⟨w, hw, ht⟩ := hx x (by simp)
      simp only [find_week_row_aux, hw]
      rw [ht]
      simp only [Bool.false_eq_true, if_false]
      exact ih (i + 1) (fun el hel => hx el (by simp [hel]))
  have h1 : find_week_row tl = Except.ok none := aux tl 0 h
  refine ⟨h1, ?_⟩
  unfold main_scan
  rw [h1]

/-- C7 witness: a sequence holding only a day marker. -/
theorem c7_witness :
    find_week_row [dayMarkerTable] = Except.ok none ∧
    main_scan 2024 [dayMarkerTable] =
      Except.error "TypeError: unsupported operand type(s) for +: 'NoneType' and 'int'" :=
  c7_no_week_row_crash 2024 [dayMarkerTable]
    (by
      intro el hel
      simp only [List.mem_singleton] at hel
      subst hel
      exact ⟨none, rfl, rfl⟩)

/-- C3: for a well-formed event group (detail row whose four fields
extract and whose time range matches; dates row whose non-`None` date
strings all reconstruct), the scanner returns exactly one record per
non-`None` date cell, all sharing description, location and times of
day, each with its own date's timestamps; in particular a dates row
with no non-`None` cell yields `[]` and no failure. -/
theorem c3_group_scan (year : Nat) (tl : List Node) (pos : Nat)
    (dcells Dcells : List Node) (time room code descr t1 t2 : String)
    (f g : String → Timestamp)
    (h1 : rowTds tl pos = Except.ok dcells)
    (h2 : rowTds tl (pos + 1) = Except.ok Dcells)
    (h3 : cellString dcells 1 = Except.ok time)
    (h4 : cellString dcells 2 = Except.ok room)
    (h5 : cellAString dcells 3 = Except.ok code)
    (h6 : cellString dcells 4 = Except.ok descr)
    (h7 : matchTimeRange time = some (t1, t2))
    (h8 : ∀ d ∈ Dcells.filterMap Node.string,
      construct_timestamp year d t1 = Except.ok (f d) ∧
      construct_timestamp year d t2 = Except.ok (g d)) :
    process_event_rows year tl pos = Except.ok
      ((Dcells.filterMap Node.string).map (fun d =>
        ⟨descr ++ " (" ++ code ++ ")", room, f d, g d⟩)) := by
  unfold process_event_rows
  simp only [h1, h2, h3, h4, h5, h6, h7]
  apply mapM_ok_of_forall
  intro d hd
  obtain ⟨ha, hb⟩ := h8 d hd
  simp only [ha, hb]

/-- C3 witness: the two-date group yields its two records; the group
whose only date cell has no text yields zero records and no failure. -/
theorem c3_witness :
    process_event_rows 2024 groupTables 0 = Except.ok
      [⟨"Intro to Systems (H00A0a)", "200B", ⟨2024, 3, 18, 9, 0⟩, ⟨2024, 3, 18, 10, 0⟩⟩,
       ⟨"Intro to Systems (H00A0a)", "200B", ⟨2024, 3, 25, 9, 0⟩, ⟨2024, 3, 25, 10, 0⟩⟩] ∧
    process_event_rows 2024 emptyDatesTables 0 = Except.ok [] := by
  constructor
  · have h := c3_group_scan 2024 groupTables 0
      [tdCell "", tdCell "09:00 to 10:00", tdCell "200B", tdLinkCell "H00A0a",
        tdCell "Intro to Systems"]
      [tdCell "18.03", tdCell "25.03"]
      "09:00 to 10:00" "200B" "H00A0a" "Intro to Systems" "09:00" "10:00"
      (fun d => if d = "25.03" then ⟨2024, 3, 25, 9, 0⟩ else ⟨2024, 3, 18, 9, 0⟩)
      (fun d => if d = "25.03" then ⟨2024, 3, 25, 10, 0⟩ else ⟨2024, 3, 18, 10, 0⟩)
      rfl rfl rfl rfl rfl rfl (by decide) (by decide)
    rw [h]
    decide
  · have h := c3_group_scan 2024 emptyDatesTables 0
      [tdCell "", tdCell "09:00 to 10:00", tdCell "200B", tdLinkCell "H00A0a",
        tdCell "Intro to Systems"]
      [Node.tag "td" []]
      "09:00 to 10:00" "200B" "H00A0a" "Intro to Systems" "09:00" "10:00"
      (fun _ => ⟨2024, 3, 18, 9, 0⟩) (fun _ => ⟨2024, 3, 18, 10, 0⟩)
      rfl rfl rfl rfl rfl rfl (by decide) (by decide)
    rw [h]
    decide

/-- C6: a time-range text the pattern rejects makes the event group
fatal (`m[1]` on `None` raises), and a date cell rejected by `DD.MM`
makes the batch fatal too — the result is the error, never a silently
skipped row or a partial record list. -/
theorem c6_fatal_on_mismatch (year : Nat) (tl : List Node) (pos : Nat)
    (dcells Dcells : List Node) (time room code descr t1 t2 : String)
    (good : List String) (bad : String) (after : List String)
    (h1 : rowTds tl pos = Except.ok dcells)
    (h2 : rowTds tl (pos + 1) = Except.ok Dcells)
    (h3 : cellString dcells 1 = Except.ok time)
    (h4 : cellString dcells 2 = Except.ok room)
    (h5 : cellAString dcells 3 = Except.ok code)
    (h6 : cellString dcells 4 = Except.ok descr) :
    (matchTimeRange time = none →
      process_event_rows year tl pos =
        Except.error "TypeError: 'NoneType' object is not subscriptable") ∧
    (matchTimeRange time = some (t1, t2) →
      Dcells.filterMap Node.string = good ++ bad :: after →
      (∀ d ∈ good, ∃ u v, construct_timestamp year d t1 = Except.ok u ∧
        construct_timestamp year d t2 = Except.ok v) →
      matchDDMM bad = none →
      process_event_rows year tl pos =
        Except.error "TypeError: 'NoneType' object is not subscriptable") := by
  constructor
  · intro h7
    unfold process_event_rows
    simp only [h1, h2, h3, h4, h5, h6, h7]
  · intro h7 hdec hgood hbad
    unfold process_event_rows
    simp only [h1, h2, h3, h4, h5, h6, h7, hdec]
    apply mapM_error_append
    · intro d hd
      obtain ⟨u, v, hu, hv⟩ := hgood d hd
      exact ⟨⟨descr ++ " (" ++ code ++ ")", room, u, v⟩, by simp only [hu, hv]⟩
    · show (match construct_timestamp year bad t1 with
        | Except.error e => Except.error e
        | Except.ok u =>
          match construct_timestamp year bad t2 with
          | Except.error e => Except.error e
          | Except.ok v => Except.ok (⟨descr ++ " (" ++ code ++ ")", room, u, v⟩ : CalEvent)) =
        Except.error "TypeError: 'NoneType' object is not subscriptable"
      rw [show construct_timestamp year bad t1 =
          Except.error "TypeError: 'NoneType' object is not subscriptable" from by
        unfold construct_timestamp
        rw [hbad]]

/-- C6 witness: the `"invalid"` time range and the `"soon"` date cell
each crash their batch. -/
theorem c6_witness :
    process_event_rows 2024 badTimeTables 0 =
      Except.error "TypeError: 'NoneType' object is not subscriptable" ∧
    process_event_rows 2024 badDateTables 0 =
      Except.error "TypeError: 'NoneType' object is not subscriptable" :=
  ⟨(c6_fatal_on_mismatch 2024 badTimeTables 0
      [tdCell "", tdCell "invalid", tdCell "200B", tdLinkCell "H00A0a",
        tdCell "Intro to Systems"]
      [tdCell "18.03", tdCell "25.03"]
      "invalid" "200B" "H00A0a" "Intro to Systems" "" ""
      [] "" [] rfl rfl rfl rfl rfl rfl).1 (by decide),
   (c6_fatal_on_mismatch 2024 badDateTables 0
      [tdCell "", tdCell "09:00 to 10:00", tdCell "200B", tdLinkCell "H00A0a",
        tdCell "Intro to Systems"]
      [tdCell "18.03", tdCell "soon"]
      "09:00 to 10:00" "200B" "H00A0a" "Intro to Systems" "09:00" "10:00"
      ["18.03"] "soon" [] rfl rfl rfl rfl rfl rfl).2 (by decide) (by decide)
      (by intro d hd
          simp only [List.mem_singleton] at hd
          subst hd
          exact ⟨⟨2024, 3, 18, 9, 0⟩, ⟨2024, 3, 18, 10, 0⟩, by decide, by decide⟩)
      (by decide)⟩

theorem pickCell_ok_iff (cs : List Node) (td : Node) :
    pickCell cs = Except.ok td ↔ inspectedCell cs = some td := by
  unfold pickCell inspectedCell pyIndex
  cases h0 : cs[0]? with
  | none => simp
  | some c0 =>
    dsimp only
    by_cases hnl : (c0.string == some "\n") = true
    · simp only [hnl, if_true]
      cases h1 : cs[1]? with
      | none => simp
      | some c1 => simp
    · simp [hnl]

theorem pickCell_error_none {cs : List Node} {e : String}
    (h : pickCell cs = Except.error e) : inspectedCell cs = none := by
  unfold pickCell pyIndex at h
  unfold inspectedCell
  cases h0 : cs[0]? with
  | none => rfl
  | some c0 =>
    rw [h0] at h
    dsimp only at h
    dsimp only
    by_cases hnl : (c0.string == some "\n") = true
    · rw [if_pos hnl] at h
      rw [if_pos hnl]
      cases h1 : cs[1]? with
      | none => rfl
      | some c1 =>
        rw [h1] at h
        cases h
    · rw [if_neg hnl] at h
      cases h

theorem weekCellCheck_truthy_iff (td : Node) :
    (∃ w, weekCellCheck td = Except.ok w ∧ truthy w = true) ↔
    ((Node.tagName td).isSome && weekFontCond td) = true := by
  cases td with
  | text s => simp [weekCellCheck, Node.tagName, truthy]
  | elem t cs =>
    simp only [weekCellCheck, Node.tagName, Option.isSome_some, Bool.true_and, weekFontCond]
    cases hf : Node.find "font" (Node.elem t cs) with
    | none => simp [truthy]
    | some f =>
      cases hs : f.string with
      | none => simp [hs]
      | some s =>
        by_cases hW : sanitize_string s = "Week"
        · simp [hs, hW, truthy]
        · simp [hs, hW, truthy]

/-- C5 (counterexample): a table whose first cell's text is exactly
`Week` but with no `font` sub-element satisfies the claim's condition
(first non-whitespace cell trims to `"Week"`), yet the classifier falls
through to the implicit `None` — falsy, so not a week row. -/
theorem c5_counterexample :
    spec_is_week_row plainWeekTable = true ∧
    is_week_row plainWeekTable = Except.ok none := by
  exact ⟨by decide, by decide⟩

/-- C5 (amended): the classifier yields a truthy result exactly on a
table-like node with a `tr` descendant whose inspected cell (first child
of the row, or second when the first's text is exactly a newline) is a
tag carrying a `font` descendant whose string trims to exactly `"Week"`;
every fall-through, the implicit `None` included, is falsy and thus not
a week row. -/
theorem c5_amended (el : Node) :
    (∃ w, is_week_row el = Except.ok w ∧ truthy w = true) ↔ week_marker_cond el = true := by
  unfold is_week_row week_marker_cond
  cases hn : Node.tagName el with
  | none => simp
  | some nm =>
    dsimp only
    by_cases htab : pyLower nm = "table"
    · rw [if_neg (by simp [htab])]
      rw [show (pyLower nm == "table") = true from by simp [htab]]
      rw [Bool.true_and]
      cases htr : Node.find "tr" el with
      | none => simp [truthy]
      | some tr_el =>
        dsimp only
        cases hp : pickCell tr_el.childrenOf with
        | error e =>
          rw [pickCell_error_none hp]
          simp
        | ok td =>
          rw [(pickCell_ok_iff _ _).mp hp]
          exact weekCellCheck_truthy_iff td
    · rw [if_pos (by simp [htab])]
      rw [show (pyLower nm == "table") = false from by simp [htab]]
      simp [truthy]

/-- C5 witness: the fixture week marker is classified truthily. -/
theorem c5_witness :
    ∃ w, is_week_row weekMarkerTable = Except.ok w ∧ truthy w = true :=
  (c5_amended weekMarkerTable).mpr (by decide)

theorem stringExt {a b : String} (h : a.data = b.data) : a = b := by
  cases a
  cases b
  cases h
  rfl

theorem string_length_toList (s : String) : s.length = s.toList.length := rfl

theorem zfill2_toList (s : String) :
    (zfill2 s).toList = List.replicate (2 - s.length) '0' ++ s.toList := by
  unfold zfill2
  by_cases h : s.length < 2
  · rw [if_pos h]
    exact toList_append _ _
  · rw [if_neg h]
    have h2 : 2 - s.length = 0 := by omega
    rw [h2]
    simp

theorem zfill2_length (s : String) : (zfill2 s).length = max 2 s.length := by
  rw [string_length_toList, zfill2_toList, List.length_append, List.length_replicate]
  rw [← string_length_toList]
  omega

theorem zfill2_of_ge {s : String} (h : 2 ≤ s.length) : zfill2 s = s := by
  unfold zfill2
  rw [if_neg (by omega)]

theorem zfill2_idem (s : String) : zfill2 (zfill2 s) = zfill2 s := by
  apply zfill2_of_ge
  rw [zfill2_length]
  omega

theorem matchDDMM_structured (a b : List Char) (ha : a ≠ []) (hb : b ≠ [])
    (hda : ∀ c ∈ a, isPyDigit c = true) (hdb : ∀ c ∈ b, isPyDigit c = true) :
    matchDDMM (String.mk (a ++ '.' :: b)) = some (String.mk a, String.mk b) := by
  unfold matchDDMM
  rw [show (String.mk (a ++ '.' :: b)).toList = a ++ '.' :: b from rfl]
  dsimp only
  rw [takeWhile_append_stop hda (by decide)]
  rw [show a.isEmpty = false from by cases a with
    | nil => exact absurd rfl ha
    | cons x xs => rfl]
  rw [if_neg (by simp)]
  rw [List.drop_left]
  rw [show expectChar '.' ('.' :: b) = some b from by simp [expectChar]]
  rw [Option.some_bind]
  rw [takeWhile_all hdb]
  rw [show b.isEmpty = false from by cases b with
    | nil => exact absurd rfl hb
    | cons x xs => rfl]
  rw [if_neg (by simp)]

/-- C10: timestamp reconstruction zero-fills both matched groups to two
digits, so a date string with one- or two-digit day and month parts
produces exactly the same result — timestamp or failure alike — as the
corresponding zero-padded two-digit date string, for every time string
and every year. -/
theorem c10_zero_pad (dp mp : List Char) (y : Nat) (t : String)
    (hdp : dp ≠ []) (hmp : mp ≠ [])
    (hd : ∀ c ∈ dp, isPyDigit c = true) (hm : ∀ c ∈ mp, isPyDigit c = true) :
    construct_timestamp y (String.mk (dp ++ '.' :: mp)) t =
      construct_timestamp y (zfill2 (String.mk dp) ++ "." ++ zfill2 (String.mk mp)) t := by
  have hzd : (zfill2 (String.mk dp)).toList ≠ [] := by
    rw [zfill2_toList]
    simp [hdp]
  have hzm : (zfill2 (String.mk mp)).toList ≠ [] := by
    rw [zfill2_toList]
    simp [hmp]
  have hzdd : ∀ c ∈ (zfill2 (String.mk dp)).toList, isPyDigit c = true := by
    rw [zfill2_toList]
    intro c hc
    rcases List.mem_append.mp hc with h | h
    · rw [List.eq_of_mem_replicate h]
      decide
    · exact hd c h
  have hzmd : ∀ c ∈ (zfill2 (String.mk mp)).toList, isPyDigit c = true := by
    rw [zfill2_toList]
    intro c hc
    rcases List.mem_append.mp hc with h | h
    · rw [List.eq_of_mem_replicate h]
      decide
    · exact hm c h
  have hrhs : zfill2 (String.mk dp) ++ "." ++ zfill2 (String.mk mp) =
      String.mk ((zfill2 (String.mk dp)).toList ++ '.' :: (zfill2 (String.mk mp)).toList) := by
    apply stringExt
    rw [show (zfill2 (String.mk dp) ++ "." ++ zfill2 (String.mk mp)).data =
      ((zfill2 (String.mk dp)).data ++ ['.']) ++ (zfill2 (String.mk mp)).data from by
        rw [String.data_append, String.data_append]]
    simp [String.toList]
  unfold construct_timestamp
  rw [matchDDMM_structured dp mp hdp hmp hd hm]
  rw [hrhs]
  rw [matchDDMM_structured _ _ hzd hzm hzdd hzmd]
  dsimp only
  rw [show String.mk (zfill2 (String.mk dp)).toList = zfill2 (String.mk dp) from
    stringExt rfl]
  rw [show String.mk (zfill2 (String.mk mp)).toList = zfill2 (String.mk mp) from
    stringExt rfl]
  rw [zfill2_idem, zfill2_idem]

/-- C10 witness: `"5.3"` agrees with its padded form `"05.03"`, and the
common value is 2024-03-05T09:30. -/
theorem c10_witness :
    construct_timestamp 2024 "5.3" "09:30" =
      construct_timestamp 2024 (zfill2 "5" ++ "." ++ zfill2 "3") "09:30" ∧
    construct_timestamp 2024 "5.3" "09:30" = Except.ok ⟨2024, 3, 5, 9, 30⟩ :=
  ⟨c10_zero_pad ['5'] ['3'] 2024 "09:30" (by decide) (by decide) (by decide) (by decide),
   by decide⟩

theorem space_chars {c : Char} (h : isPySpace c = true) :
    c = ' ' ∨ c = '\t' ∨ c = '\n' ∨ c = '\r' ∨ c = '\x0b' ∨ c = '\x0c' := by
  simp only [isPySpace, Bool.or_eq_true, beq_iff_eq] at h
  tauto

theorem space_not_digit {c : Char} (h : isPySpace c = true) : isPyDigit c = false := by
  rcases space_chars h with rfl | rfl | rfl | rfl | rfl | rfl <;> decide

theorem space_not_word {c : Char} (h : isPySpace c = true) : isPyWord c = false := by
  rcases space_chars h with rfl | rfl | rfl | rfl | rfl | rfl <;> decide

theorem word_not_space {c : Char} (h : isPyWord c = true) : isPySpace c = false := by
  cases hs : isPySpace c
  · rfl
  · rw [space_not_word hs] at h
    cases h

theorem digit_not_space {c : Char} (h : isPyDigit c = true) : isPySpace c = false := by
  cases hs : isPySpace c
  · rfl
  · rw [space_not_digit hs] at h
    cases h

theorem expectChar_cons (c : Char) (r : List Char) : expectChar c (c :: r) = some r := by
  simp [expectChar]

theorem takeWhile_append_head {p : Char → Bool} {l m : List Char}
    (hl : ∀ c ∈ l, p c = true)
    (hm : ∀ y, m.head? = some y → p y = false) :
    (l ++ m).takeWhile p = l := by
  induction l with
  | nil =>
    cases m with
    | nil => rfl
    | cons y t => simp [List.takeWhile_cons, hm y rfl]
  | cons x xs ih =>
    simp only [List.cons_append, List.takeWhile_cons, hl x (by simp)]
    simp [ih (fun c hc => hl c (by simp [hc]))]

theorem firstSome_greedy_append {α : Type} {p : Char → Bool} {l m : List Char} {lo : Nat}
    {F : Nat → Option α} {r : α}
    (hl : ∀ c ∈ l, p c = true)
    (hm : ∀ y, m.head? = some y → p y = false)
    (hlo : lo ≤ l.length)
    (h : F l.length = some r) :
    firstSome F (greedyLens p (l ++ m) lo) = some r := by
  have hstop := takeWhile_append_head hl hm
  obtain ⟨ns, hg⟩ := @greedyLens_eq_cons p (l ++ m) lo
    (by rw [hstop]; exact hlo)
  rw [hg, hstop]
  exact firstSome_cons_some h

theorem firstSome_greedy_all {α : Type} {p : Char → Bool} {l : List Char} {lo : Nat}
    {F : Nat → Option α} {r : α}
    (hl : ∀ c ∈ l, p c = true) (hlo : lo ≤ l.length) (h : F l.length = some r) :
    firstSome F (greedyLens p l lo) = some r := by
  obtain ⟨ns, hg⟩ := @greedyLens_eq_cons p l lo
    (by rw [takeWhile_all hl]; exact hlo)
  rw [hg, takeWhile_all hl]
  exact firstSome_cons_some h

/-- C2 (counterexample): `"09:00 - 10:00"` is of the form `HH:MM`,
separator token, `HH:MM` with a non-digit separator, yet the time-range
parse fails: `-` is not a `\w` character. -/
theorem c2_counterexample :
    matchTimeRange "09:00 - 10:00" = none ∧ isPyDigit '-' = false := by
  exact ⟨by decide, by decide⟩

/-- C2 (amended): for every time-range string of the form digits, `:`,
digits, whitespace, a `\w+` word token (letters, digits or underscore —
not an arbitrary non-digit token), whitespace, digits, `:`, digits, the
parse succeeds and captures the first `HH:MM` as the start and the
second as the end. -/
theorem c2_amended (a b e f w sp1 sp2 : List Char)
    (ha : a ≠ []) (hb : b ≠ []) (he : e ≠ []) (hf : f ≠ []) (hw : w ≠ [])
    (hs1 : sp1 ≠ []) (hs2 : sp2 ≠ [])
    (hda : ∀ c ∈ a, isPyDigit c = true) (hdb : ∀ c ∈ b, isPyDigit c = true)
    (hde : ∀ c ∈ e, isPyDigit c = true) (hdf : ∀ c ∈ f, isPyDigit c = true)
    (hww : ∀ c ∈ w, isPyWord c = true)
    (hp1 : ∀ c ∈ sp1, isPySpace c = true) (hp2 : ∀ c ∈ sp2, isPySpace c = true) :
    matchTimeRange (String.mk (a ++ ':' :: (b ++ (sp1 ++ (w ++ (sp2 ++ (e ++ ':' :: f))))))) =
      some (String.mk (a ++ ':' :: b), String.mk (e ++ ':' :: f)) := by
  obtain ⟨p1, pt, rfl⟩ := List.exists_cons_of_ne_nil hs1
  obtain ⟨w1, wt, rfl⟩ := List.exists_cons_of_ne_nil hw
  obtain ⟨q1, qt, rfl⟩ := List.exists_cons_of_ne_nil hs2
  obtain ⟨e1, et, rfl⟩ := List.exists_cons_of_ne_nil he
  unfold matchTimeRange
  simp only [String.toList]
  refine firstSome_greedy_append hda (fun y hy => by cases hy; decide)
    (List.length_pos.mpr ha) ?_
  dsimp only
  rw [List.take_left, List.drop_left, expectChar_cons, Option.some_bind]
  refine firstSome_greedy_append hdb (fun y hy => ?_) (List.length_pos.mpr hb) ?_
  · have hyp : p1 = y := by simpa using hy
    rw [← hyp]
    exact space_not_digit (hp1 p1 (by simp))
  dsimp only
  rw [List.take_left, List.drop_left]
  refine firstSome_greedy_append hp1 (fun y hy => ?_) (Nat.zero_le _) ?_
  · have hyp : w1 = y := by simpa using hy
    rw [← hyp]
    exact word_not_space (hww w1 (by simp))
  dsimp only
  rw [List.drop_left]
  refine firstSome_greedy_append hww (fun y hy => ?_)
    (Nat.succ_le_succ (Nat.zero_le _)) ?_
  · have hyp : q1 = y := by simpa using hy
    rw [← hyp]
    exact space_not_word (hp2 q1 (by simp))
  dsimp only
  rw [List.drop_left]
  refine firstSome_greedy_append hp2 (fun y hy => ?_) (Nat.zero_le _) ?_
  · have hyp : e1 = y := by simpa using hy
    rw [← hyp]
    exact digit_not_space (hde e1 (by simp))
  dsimp only
  rw [List.drop_left]
  refine firstSome_greedy_append hde (fun y hy => by cases hy; decide)
    (Nat.succ_le_succ (Nat.zero_le _)) ?_
  dsimp only
  rw [List.take_left, List.drop_left, expectChar_cons, Option.some_bind]
  refine firstSome_greedy_all hdf (List.length_pos.mpr hf) ?_
  dsimp only
  rw [List.take_length]

/-- C2 witness: `"09:00 to 10:00"` parses into its two times. -/
theorem c2_witness :
    matchTimeRange "09:00 to 10:00" = some ("09:00", "10:00") := by
  have h := c2_amended ['0','9'] ['0','0'] ['1','0'] ['0','0'] ['t','o'] [' '] [' ']
    (by decide) (by decide) (by decide) (by decide) (by decide) (by decide) (by decide)
    (by decide) (by decide) (by decide) (by decide) (by decide) (by decide) (by decide)
  exact h

theorem daysInMonth_le (y m : Nat) : daysInMonth y m ≤ 31 := by
  unfold daysInMonth
  split_ifs <;> omega

theorem parseYMD_some_inv {cs : List Char} {y mo d : Nat} {rest : List Char}
    (h : parseYMD cs = some (y, mo, d, rest)) :
    ∃ x1 x2 x3 x4 x5 x6 x7 x8,
      cs = x1 :: x2 :: x3 :: x4 :: '-' :: x5 :: x6 :: '-' :: x7 :: x8 :: rest ∧
      isPyDigit x1 = true ∧ isPyDigit x2 = true ∧ isPyDigit x3 = true ∧
      isPyDigit x4 = true ∧ isPyDigit x5 = true ∧ isPyDigit x6 = true ∧
      isPyDigit x7 = true ∧ isPyDigit x8 = true ∧
      y = val4 x1 x2 x3 x4 ∧ mo = val2 x5 x6 ∧ d = val2 x7 x8 := by
  unfold parseYMD at h
  split at h
  case h_1 a b c dd s1 e f s2 g hh rest' =>
    split at h
    case isTrue hguard =>
      simp only [Bool.and_eq_true, beq_iff_eq] at hguard
      obtain ⟨⟨⟨⟨⟨⟨⟨⟨⟨hs1, hs2⟩, h1⟩, h2⟩, h3⟩, h4⟩, h5⟩, h6⟩, h7⟩, h8⟩ := hguard
      injection h with h'
      obtain ⟨hy, hmo, hd, hrest⟩ : y = val4 a b c dd ∧ mo = val2 e f ∧ d = val2 g hh ∧ rest = rest' := by
        have := h'
        simp only [Prod.mk.injEq] at this
        tauto
      subst hs1
      subst hs2
      subst hrest
      exact ⟨a, b, c, dd, e, f, g, hh, rfl, h1, h2, h3, h4, h5, h6, h7, h8, hy, hmo, hd⟩
    case isFalse => cases h
  case h_2 => cases h


theorem arrow_get_ok_inv {s : String} {A : Timestamp}
    (h : arrow_get s = Except.ok A) :
    ∃ rest, parseYMD s.toList = some (A.year, A.month, A.day, rest) ∧
      1 ≤ A.month ∧ A.month ≤ 12 ∧ 1 ≤ A.day ∧ A.day ≤ 31 ∧
      A.hour ≤ 23 ∧ A.minute ≤ 59 := by
  unfold arrow_get at h
  cases hp : parseYMD s.toList with
  | none => rw [hp] at h; cases h
  | some p =>
    rw [hp] at h
    obtain ⟨y, mo, d, rest⟩ := p
    dsimp only at h
    cases he : expectChar ' ' rest with
    | none => rw [he] at h; cases h
    | some rest2 =>
      rw [he] at h
      dsimp only at h
      cases hm : parseHMEnd rest2 with
      | none => rw [hm] at h; cases h
      | some q =>
        rw [hm] at h
        obtain ⟨hh, mi⟩ := q
        dsimp only at h
        split at h
        case isTrue hguard =>
          simp only [Bool.and_eq_true, decide_eq_true_eq] at hguard
          injection h with h'
          rw [← h']
          dsimp only
          have hd31 : d ≤ 31 := le_trans (by tauto) (daysInMonth_le y mo)
          exact ⟨rest, rfl, by tauto, by tauto, by tauto, hd31, by tauto, by tauto⟩
        case isFalse => cases h

theorem construct_ok_inv {y : Nat} {dt t : String} {A : Timestamp}
    (h : construct_timestamp y dt t = Except.ok A) :
    ∃ dd mm rest,
      matchDDMM dt = some (dd, mm) ∧
      parseYMD ((toString y ++ "-" ++ zfill2 mm ++ "-" ++ zfill2 dd ++ " " ++ t)).toList
        = some (A.year, A.month, A.day, rest) ∧
      1 ≤ A.month ∧ A.month ≤ 12 ∧ 1 ≤ A.day ∧ A.day ≤ 31 ∧
      A.hour ≤ 23 ∧ A.minute ≤ 59 := by
  unfold construct_timestamp at h
  cases hm : matchDDMM dt with
  | none => rw [hm] at h; cases h
  | some p =>
    rw [hm] at h
    obtain ⟨dd, mm⟩ := p
    dsimp only at h
    obtain ⟨rest, hp, hb⟩ := arrow_get_ok_inv h
    exact ⟨dd, mm, rest, rfl, hp, hb⟩

theorem append_cons_decomp {α : Type} {q r X : List α} {x : α}
    (h : q ++ r = x :: X) (hl : 1 ≤ q.length) :
    ∃ q', q = x :: q' ∧ q' ++ r = X := by
  cases q with
  | nil => simp at hl
  | cons a q' =>
    simp only [List.cons_append, List.cons.injEq] at h
    obtain ⟨rfl, h2⟩ := h
    exact ⟨q', rfl, h2⟩

theorem append_eq_ten {α : Type} {q r : List α}
    {x1 x2 x3 x4 x5 x6 x7 x8 x9 x10 : α} {X : List α}
    (h : q ++ r = x1 :: x2 :: x3 :: x4 :: x5 :: x6 :: x7 :: x8 :: x9 :: x10 :: X)
    (hl : 10 ≤ q.length) :
    ∃ q', q = x1 :: x2 :: x3 :: x4 :: x5 :: x6 :: x7 :: x8 :: x9 :: x10 :: q' := by
  obtain ⟨q1, rfl, g1⟩ := append_cons_decomp h (by omega)
  simp only [List.length_cons] at hl
  obtain ⟨q2, rfl, g2⟩ := append_cons_decomp g1 (by omega)
  simp only [List.length_cons] at hl
  obtain ⟨q3, rfl, g3⟩ := append_cons_decomp g2 (by omega)
  simp only [List.length_cons] at hl
  obtain ⟨q4, rfl, g4⟩ := append_cons_decomp g3 (by omega)
  simp only [List.length_cons] at hl
  obtain ⟨q5, rfl, g5⟩ := append_cons_decomp g4 (by omega)
  simp only [List.length_cons] at hl
  obtain ⟨q6, rfl, g6⟩ := append_cons_decomp g5 (by omega)
  simp only [List.length_cons] at hl
  obtain ⟨q7, rfl, g7⟩ := append_cons_decomp g6 (by omega)
  simp only [List.length_cons] at hl
  obtain ⟨q8, rfl, g8⟩ := append_cons_decomp g7 (by omega)
  simp only [List.length_cons] at hl
  obtain ⟨q9, rfl, g9⟩ := append_cons_decomp g8 (by omega)
  simp only [List.length_cons] at hl
  obtain ⟨q10, rfl, g10⟩ := append_cons_decomp g9 (by omega)
  exact ⟨q10, rfl⟩

theorem construct_pair_same_date {y : Nat} {dt t1 t2 : String} {A B : Timestamp}
    (h1 : construct_timestamp y dt t1 = Except.ok A)
    (h2 : construct_timestamp y dt t2 = Except.ok B) :
    A.year = B.year ∧ A.month = B.month ∧ A.day = B.day := by
  obtain ⟨dd, mm, rest1, hm1, hp1, hb1⟩ := construct_ok_inv h1
  obtain ⟨dd2, mm2, rest2, hm2, hp2, hb2⟩ := construct_ok_inv h2
  rw [hm1] at hm2
  injection hm2 with hm2'
  obtain ⟨hdd, hmm⟩ : dd = dd2 ∧ mm = mm2 := by
    simpa [Prod.ext_iff] using hm2'
  subst hdd
  subst hmm
  rw [toList_append] at hp1 hp2
  obtain ⟨x1, x2, x3, x4, x5, x6, x7, x8, hcs1, hx1, hx2, hx3, hx4, hx5, hx6, hx7, hx8,
    hyA, hmoA, hdA⟩ := parseYMD_some_inv hp1
  obtain ⟨z1, z2, z3, z4, z5, z6, z7, z8, hcs2, hz1, hz2, hz3, hz4, hz5, hz6, hz7, hz8,
    hyB, hmoB, hdB⟩ := parseYMD_some_inv hp2
  have hq : (toString y ++ "-" ++ zfill2 mm ++ "-" ++ zfill2 dd ++ " ").toList =
      (toString y).toList ++ '-' ::
        ((zfill2 mm).toList ++ '-' :: ((zfill2 dd).toList ++ [' '])) := by
    simp only [toList_append, List.append_assoc]
    rfl
  rcases hty : (toString y).toList with _ | ⟨u1, _ | ⟨u2, _ | ⟨u3, tyR⟩⟩⟩
  · rw [hq, hty] at hcs1
    simp only [List.nil_append, List.cons_append, List.cons.injEq] at hcs1
    obtain ⟨hcontra, _⟩ := hcs1
    rw [← hcontra] at hx1
    cases hx1
  · rw [hq, hty] at hcs1
    simp only [List.nil_append, List.cons_append, List.cons.injEq] at hcs1
    obtain ⟨_, hcontra, _⟩ := hcs1
    rw [← hcontra] at hx2
    cases hx2
  · rw [hq, hty] at hcs1
    simp only [List.nil_append, List.cons_append, List.cons.injEq] at hcs1
    obtain ⟨_, _, hcontra, _⟩ := hcs1
    rw [← hcontra] at hx3
    cases hx3
  · have lmm : 2 ≤ (zfill2 mm).toList.length := by
      rw [← string_length_toList, zfill2_length]
      omega
    have ldd : 2 ≤ (zfill2 dd).toList.length := by
      rw [← string_length_toList, zfill2_length]
      omega
    have hlen : 10 ≤ (toString y ++ "-" ++ zfill2 mm ++ "-" ++ zfill2 dd ++ " ").toList.length := by
      rw [hq, hty]
      simp only [List.length_append, List.length_cons, List.length_singleton]
      omega
    obtain ⟨q', hq'⟩ := append_eq_ten hcs1 hlen
    rw [hq'] at hcs2
    simp only [List.cons_append, List.cons.injEq] at hcs2
    obtain ⟨e1, e2, e3, e4, _, e5, e6, _, e7, e8, _⟩ := hcs2
    refine ⟨?_, ?_, ?_⟩
    · rw [hyA, hyB, e1, e2, e3, e4]
    · rw [hmoA, hmoB, e5, e6]
    · rw [hdA, hdB, e7, e8]

theorem mapM_ok_mem {α β : Type} {F : α → Except String β} :
    ∀ {l : List α} {out : List β}, l.mapM F = Except.ok out →
      ∀ b ∈ out, ∃ a ∈ l, F a = Except.ok b := by
  intro l
  induction l with
  | nil =>
    intro out h b hb
    rw [show ([] : List α).mapM F = Except.ok [] from rfl] at h
    injection h with h'
    subst h'
    cases hb
  | cons x xs ih =>
    intro out h b hb
    rw [List.mapM_cons] at h
    cases hx : F x with
    | error e =>
      rw [hx] at h
      rw [show (Except.error e : Except String β) >>=
        (fun b => xs.mapM F >>= fun bs => pure (b :: bs)) = Except.error e from rfl] at h
      cases h
    | ok b0 =>
      rw [hx] at h
      rw [show (Except.ok b0 : Except String β) >>=
        (fun b => xs.mapM F >>= fun bs => pure (b :: bs)) =
        xs.mapM F >>= fun bs => pure (b0 :: bs) from rfl] at h
      cases hxs : xs.mapM F with
      | error e =>
        rw [hxs] at h
        rw [show (Except.error e : Except String (List β)) >>=
          (fun bs => pure (b0 :: bs)) = Except.error e from rfl] at h
        cases h
      | ok bs =>
        rw [hxs] at h
        rw [show (Except.ok bs : Except String (List β)) >>=
          (fun bs => pure (b0 :: bs)) = Except.ok (b0 :: bs) from rfl] at h
        injection h with h'
        subst h'
        rcases List.mem_cons.mp hb with rfl | hmem
        · exact ⟨x, by simp, hx⟩
        · obtain ⟨a, ha, hFa⟩ := ih hxs b hmem
          exact ⟨a, by simp [ha], hFa⟩

theorem process_ok_inv {year : Nat} {tl : List Node} {pos : Nat} {evs : List CalEvent}
    (h : process_event_rows year tl pos = Except.ok evs) :
    ∃ t1 t2 : String, ∀ ev ∈ evs, ∃ dt : String,
      construct_timestamp year dt t1 = Except.ok ev.dt_start ∧
      construct_timestamp year dt t2 = Except.ok ev.dt_stop := by
  unfold process_event_rows at h
  cases h1 : rowTds tl pos with
  | error e => rw [h1] at h; cases h
  | ok dcells =>
  rw [h1] at h
  dsimp only at h
  cases h2 : rowTds tl (pos + 1) with
  | error e => rw [h2] at h; cases h
  | ok Dcells =>
  rw [h2] at h
  dsimp only at h
  cases h3 : cellString dcells 1 with
  | error e => rw [h3] at h; cases h
  | ok time =>
  rw [h3] at h
  dsimp only at h
  cases h4 : cellString dcells 2 with
  | error e => rw [h4] at h; cases h
  | ok room =>
  rw [h4] at h
  dsimp only at h
  cases h5 : cellAString dcells 3 with
  | error e => rw [h5] at h; cases h
  | ok code =>
  rw [h5] at h
  dsimp only at h
  cases h6 : cellString dcells 4 with
  | error e => rw [h6] at h; cases h
  | ok descr =>
  rw [h6] at h
  dsimp only at h
  cases h7 : matchTimeRange time with
  | none => rw [h7] at h; cases h
  | some m =>
  rw [h7] at h
  dsimp only at h
  refine ⟨m.1, m.2, ?_⟩
  intro ev hev
  obtain ⟨dt, hdt, hF⟩ := mapM_ok_mem h ev hev
  cases hc1 : construct_timestamp year dt m.1 with
  | error e => rw [hc1] at hF; cases hF
  | ok u =>
  rw [hc1] at hF
  dsimp only at hF
  cases hc2 : construct_timestamp year dt m.2 with
  | error e => rw [hc2] at hF; cases hF
  | ok v =>
  rw [hc2] at hF
  dsimp only at hF
  injection hF with hF'
  refine ⟨dt, ?_, ?_⟩
  · rw [← hF']
    exact hc1
  · rw [← hF']
    exact hc2

/-- C9 (amended): every record a successful batch produces has start and
stop on the same (current-year-derived) date, with month, day, hour and
minute in calendar range, and satisfies start < end (as instants)
precisely when its matched start time-of-day is earlier than its matched
end time-of-day — an ordering the code does not enforce. -/
theorem c9_amended (year : Nat) (tl : List Node) (pos : Nat) (evs : List CalEvent)
    (h : process_event_rows year tl pos = Except.ok evs) :
    ∀ ev ∈ evs,
      ev.dt_start.year = ev.dt_stop.year ∧
      ev.dt_start.month = ev.dt_stop.month ∧
      ev.dt_start.day = ev.dt_stop.day ∧
      1 ≤ ev.dt_start.month ∧ ev.dt_start.month ≤ 12 ∧
      1 ≤ ev.dt_start.day ∧ ev.dt_start.day ≤ 31 ∧
      ev.dt_start.hour ≤ 23 ∧ ev.dt_start.minute ≤ 59 ∧
      ev.dt_stop.hour ≤ 23 ∧ ev.dt_stop.minute ≤ 59 ∧
      (Timestamp.key ev.dt_start < Timestamp.key ev.dt_stop ↔
        ev.dt_start.hour * 60 + ev.dt_start.minute <
          ev.dt_stop.hour * 60 + ev.dt_stop.minute) := by
  intro ev hev
  obtain ⟨t1, t2, hall⟩ := process_ok_inv h
  obtain ⟨dt, hu, hv⟩ := hall ev hev
  obtain ⟨hyy, hmo, hdy⟩ := construct_pair_same_date hu hv
  obtain ⟨_, _, _, _, _, hm1, hm2, hd1, hd2, hh1, hmi1⟩ := construct_ok_inv hu
  obtain ⟨_, _, _, _, _, _, _, _, _, hh2, hmi2⟩ := construct_ok_inv hv
  refine ⟨hyy, hmo, hdy, hm1, hm2, hd1, hd2, hh1, hmi1, hh2, hmi2, ?_⟩
  unfold Timestamp.key
  omega

/-- C9 (counterexample): a reversed time range (`"10:00 to 09:00"`)
produces a record whose start does not precede its end. -/
theorem c9_counterexample :
    process_event_rows 2024 reversedTimeTables 0 = Except.ok
      [⟨"Intro to Systems (H00A0a)", "200B", ⟨2024, 3, 18, 10, 0⟩, ⟨2024, 3, 18, 9, 0⟩⟩] ∧
    ¬ (Timestamp.key ⟨2024, 3, 18, 10, 0⟩ < Timestamp.key ⟨2024, 3, 18, 9, 0⟩) := by
  exact ⟨by decide, by decide⟩

/-- C9 witness: the date-sharing and ordering facts instantiated on the
first record of the two-date fixture group. -/
theorem c9_witness :
    sampleEvent.dt_start.year = sampleEvent.dt_stop.year ∧
    sampleEvent.dt_start.month = sampleEvent.dt_stop.month ∧
    sampleEvent.dt_start.day = sampleEvent.dt_stop.day ∧
    1 ≤ sampleEvent.dt_start.month ∧ sampleEvent.dt_start.month ≤ 12 ∧
    1 ≤ sampleEvent.dt_start.day ∧ sampleEvent.dt_start.day ≤ 31 ∧
    sampleEvent.dt_start.hour ≤ 23 ∧ sampleEvent.dt_start.minute ≤ 59 ∧
    sampleEvent.dt_stop.hour ≤ 23 ∧ sampleEvent.dt_stop.minute ≤ 59 ∧
    (Timestamp.key sampleEvent.dt_start < Timestamp.key sampleEvent.dt_stop ↔
      sampleEvent.dt_start.hour * 60 + sampleEvent.dt_start.minute <
        sampleEvent.dt_stop.hour * 60 + sampleEvent.dt_stop.minute) :=
  c9_amended 2024 groupTables 0 [sampleEvent, sampleEvent2] (by decide)
    sampleEvent (by simp)
